import Mathlib

/-!
Verification of the conflict-resolution and temporal-extraction core of the
COMP7607 calendar-agent repository.

Shallow embedding conventions:
* A naive `datetime` is represented by its total number of minutes since an
  arbitrary midnight epoch, as an `Int`.  Naive Python datetime arithmetic
  (`+ timedelta`) is exact minute arithmetic; every day is exactly 1440
  minutes, so `dt.hour = (t mod 1440) / 60` and `dt.date()` corresponds to
  `t / 1440` (floor division).  All time quantities below are in minutes.
* The abstract event store (`self.calendar.list_events`) is passed in as a
  function from the query window to `Except Unit (List CalendarEvent)`;
  `Except.error` models the store call raising an exception.
* `async`/`await` plumbing has no semantic content here (each call is awaited
  immediately); the embedding is direct function application.
-/

/-- Hour field of a naive datetime given in minutes: `(t mod 1440) / 60`.
Models Python's `datetime.hour`. -/
def dt_hour (t : Int) : Int := (t.emod 1440).fdiv 60

/-- Subset of `models.CalendarEvent` relevant to the conflict resolver
(`id`, `title`, `start_time`, `end_time`); the remaining fields are defaulted
payload data never read by the code under verification. -/
structure CalendarEvent where
  id : String
  title : String
  start_time : Int
  end_time : Int
deriving DecidableEq, Repr

/-- Event store interface: `list_events(start_search, end_search)`, which
either returns a list of events or raises (`Except.error`). -/
abbrev Store : Type := Int → Int → Except Unit (List CalendarEvent)

/-- Embedding of `ConflictResolver._events_overlap` (conflict_resolver.py
line 31): `e1.start_time < e2.end_time and e2.start_time < e1.end_time`. -/
def events_overlap (e1 e2 : CalendarEvent) : Bool :=
  decide (e1.start_time < e2.end_time) && decide (e2.start_time < e1.end_time)

/-- Embedding of `ConflictResolver.find_conflicting_events` (lines 11-27):
pads the candidate's window by 2 hours on each side, queries the store, and
on success filters the returned events to those with a different id that
overlap the candidate; if the store query raises, the exception is caught,
logged, and the empty list is returned. -/
def find_conflicting_events (listEvents : Store) (new_event : CalendarEvent) :
    List CalendarEvent :=
  let start_search := new_event.start_time - 120
  let end_search := new_event.end_time + 120
  match listEvents start_search end_search with
  | Except.error _ => []
  | Except.ok all_events =>
      all_events.filter
        (fun event => decide (event.id ≠ new_event.id) && events_overlap event new_event)

/-- Embedding of `ConflictResolver._is_available` (lines 81-101): the slot is
unavailable when `start_time.hour < 6 or end_time.hour > 23`, and otherwise
available iff `find_conflicting_events` on a synthetic probe event of the
given duration returns the empty list.  (Note the source condition
`end_time.hour > 23` is kept verbatim.) -/
def is_available (listEvents : Store) (start_time duration : Int) : Bool :=
  let end_time := start_time + duration
  if dt_hour start_time < 6 ∨ dt_hour end_time > 23 then false
  else
    let candidate : CalendarEvent :=
      { id := "temp_check", title := "临时检查",
        start_time := start_time, end_time := end_time }
    decide ((find_conflicting_events listEvents candidate).length = 0)

/-- Candidate offsets (in minutes) generated by the four loops of
`ConflictResolver.suggest_alternative_times` (lines 47-70), in generation
order: same-day ±30/±60 minutes; ±1 day; ±1 day combined with ±1 hour;
±2 and ±3 days. -/
def candidate_offsets : List Int :=
  [-30, 30, -60, 60, -1440, 1440, -1500, -1380, 1380, 1500,
   -2880, 2880, -4320, 4320]

/-- Sort key comparison used at line 73:
`suggestions.sort(key=lambda t: abs((t - base_time).total_seconds()))`
compares candidates by absolute distance from `base_time`. -/
def sort_le (base_time a b : Int) : Bool :=
  decide ((a - base_time).natAbs ≤ (b - base_time).natAbs)

/-- Embedding of `ConflictResolver.suggest_alternative_times` (lines 33-79):
generate the candidate offsets in order, keep those that are available,
stable-sort by absolute distance from `base_time` (Python `list.sort` is a
stable sort, modelled by `List.mergeSort`), drop candidates not strictly
after `now` (the `datetime.now()` read at line 76, injected here as a
parameter), and truncate to at most 8 suggestions.  `base_time` defaults to
`new_event.start_time` at the call site; here it is always explicit. -/
def suggest_alternative_times (listEvents : Store) (new_event : CalendarEvent)
    (base_time now : Int) : List Int :=
  let event_duration := new_event.end_time - new_event.start_time
  let suggestions :=
    (candidate_offsets.map (fun d => base_time + d)).filter
      (fun cand => is_available listEvents cand event_duration)
  let sorted := suggestions.mergeSort (sort_le base_time)
  (sorted.filter (fun t => decide (now < t))).take 8

/-- Embedding of `ConflictResolver.get_available_slots` (lines 103-114):
`start_of_day` is 06:00 of the given date, and for each `hour` in
`range(6, 22)` the probed time is `start_of_day + timedelta(hours=hour)`;
the probed times that are available are returned in order. -/
def get_available_slots (listEvents : Store) (date duration : Int) : List Int :=
  let start_of_day := 1440 * date.fdiv 1440 + 360
  ((List.range' 6 16).map (fun hour => start_of_day + 60 * (hour : Int))).filter
    (fun check_time => is_available listEvents check_time duration)

/-- Store that always answers successfully with a fixed event list. -/
def okStore (evs : List CalendarEvent) : Store := fun _ _ => Except.ok evs

/-- Store whose query always raises. -/
def failStore : Store := fun _ _ => Except.error ()

/-- Concrete events for the boundary examples, with 00:00 of the relevant day
as minute 0: `[10:00, 11:00)`, `[11:00, 12:00)` and `[10:30, 11:30)`. -/
def ev10to11 : CalendarEvent :=
  { id := "a", title := "A", start_time := 600, end_time := 660 }

def ev11to12 : CalendarEvent :=
  { id := "b", title := "B", start_time := 660, end_time := 720 }

def ev1030to1130 : CalendarEvent :=
  { id := "c", title := "C", start_time := 630, end_time := 690 }

/-- Candidate with an invalid window (`start_time = end_time`, so
`start ≥ end`). -/
def evInvalidWindow : CalendarEvent :=
  { id := "new1", title := "meeting", start_time := 600, end_time := 600 }

/-- Stored event `[09:00, 11:00)` that satisfies the overlap condition
against the degenerate point window at 10:00. -/
def evAround10 : CalendarEvent :=
  { id := "e9", title := "other", start_time := 540, end_time := 660 }

/-!
Temporal extractor: embedding of `CalendarAgent._extract_datetime_from_text`
(calendar_agent.py lines 1205-1292).  Text is a `List Char`.  The clock-time
regex `(上午|下午|晚上)?([一二三四五六七八九十\d]{1,3})[点时]半?` is embedded
as a direct backtracking matcher with Python `re.search` semantics: positions
are scanned left to right; at each position the optional period group tries
the alternatives in order and then the empty match, and the greedy `{1,3}`
counter tries 3, then 2, then 1 class characters before requiring a `点` or
`时` marker.  The trailing optional `半` consumes no group, so it is dropped
(the source reads the 半 flag from the whole string, not from the match). -/

/-- Period-of-day qualifier captured by the first regex group:
上午 (morning), 下午 (afternoon), 晚上 (evening). -/
inductive Period where
  | shangwu
  | xiawu
  | wanshang
deriving DecidableEq, Repr

/-- ASCII decimal digit, modelling the regex class `\d` on the inputs in
scope. -/
def isDigitChar (c : Char) : Bool := '0' ≤ c && c ≤ '9'

/-- Membership in the Chinese-numeral part of the regex character class
`[一二三四五六七八九十]`. -/
def isChineseNumChar (c : Char) : Bool :=
  ['一', '二', '三', '四', '五', '六', '七', '八', '九', '十'].contains c

/-- Full hour character class `[一二三四五六七八九十\d]`. -/
def isHourClassChar (c : Char) : Bool := isChineseNumChar c || isDigitChar c

/-- Embedding of `chinese_number_map` (lines 1218-1224): exact-string keys
mapping spelled-out numerals 一..二十三 to 1..23. -/
def chinese_number_map : List (List Char × Nat) :=
  [(['一'], 1), (['二'], 2), (['三'], 3), (['四'], 4), (['五'], 5),
   (['六'], 6), (['七'], 7), (['八'], 8), (['九'], 9), (['十'], 10),
   (['十', '一'], 11), (['十', '二'], 12), (['十', '三'], 13),
   (['十', '四'], 14), (['十', '五'], 15), (['十', '六'], 16),
   (['十', '七'], 17), (['十', '八'], 18), (['十', '九'], 19),
   (['二', '十'], 20), (['二', '十', '一'], 21), (['二', '十', '二'], 22),
   (['二', '十', '三'], 23)]

/-- Python `int()` on the captured hour group: succeeds with the decimal
value iff every character is a decimal digit (a mixed or Chinese-numeral
string that missed the lookup table raises `ValueError`, modelled as
`none`). -/
def parseIntDigits (cs : List Char) : Option Nat :=
  if cs ≠ [] && cs.all isDigitChar then
    some (cs.foldl (fun n c => 10 * n + (c.toNat - '0'.toNat)) 0)
  else none

/-- Take exactly `k` characters of the hour class from the front, returning
the consumed characters and the rest. -/
def takeClass : Nat → List Char → Option (List Char × List Char)
  | 0, rest => some ([], rest)
  | k + 1, c :: rest =>
      if isHourClassChar c then
        (takeClass k rest).map (fun pr => (c :: pr.1, pr.2))
      else none
  | _ + 1, [] => none

/-- Try to match `[class]{k}[点时]` at the front of `s`, returning the
captured hour characters. -/
def tryHourLen (k : Nat) (s : List Char) : Option (List Char) :=
  match takeClass k s with
  | some (h, c :: _) => if c = '点' ∨ c = '时' then some h else none
  | _ => none

/-- Greedy `{1,3}` matching of the hour group followed by its `点`/`时`
marker: try three class characters first, then two, then one. -/
def tryHour (s : List Char) : Option (List Char) :=
  match tryHourLen 3 s with
  | some h => some h
  | none =>
    match tryHourLen 2 s with
    | some h => some h
    | none => tryHourLen 1 s

/-- Attempt the whole pattern at one fixed position.  The optional period
group first tries its literal alternatives (at most one can apply, as the
three literals start with distinct characters) and falls back to the empty
match — backtracking exactly as `re.search` would — before the hour group is
matched. -/
def matchAt (s : List Char) : Option (Option Period × List Char) :=
  match s with
  | '上' :: '午' :: r =>
    (match tryHour r with
     | some h => some (some Period.shangwu, h)
     | none => (tryHour s).map (fun h => (none, h)))
  | '下' :: '午' :: r =>
    (match tryHour r with
     | some h => some (some Period.xiawu, h)
     | none => (tryHour s).map (fun h => (none, h)))
  | '晚' :: '上' :: r =>
    (match tryHour r with
     | some h => some (some Period.wanshang, h)
     | none => (tryHour s).map (fun h => (none, h)))
  | _ => (tryHour s).map (fun h => (none, h))

/-- Leftmost-position scan of `re.search`: try the pattern at each suffix in
order and return the first match's captured groups `(period, hour_str)`. -/
def searchTime : List Char → Option (Option Period × List Char)
  | [] => none
  | c :: rest =>
    match matchAt (c :: rest) with
    | some r => some r
    | none => searchTime rest

/-- Embedding of the 12-hour to 24-hour promotion chain (lines 1251-1261):
afternoon/evening hours below 12 gain 12; morning hour 12 becomes 0; with no
period qualifier, hours below 8 gain 12 (default-afternoon heuristic). -/
def promote_hour (period : Option Period) (hour : Nat) : Nat :=
  if period = some Period.xiawu ∧ hour < 12 then hour + 12
  else if period = some Period.wanshang ∧ hour < 12 then hour + 12
  else if period = some Period.shangwu ∧ hour = 12 then 0
  else if period = none ∧ hour < 8 then hour + 12
  else hour

/-- Embedding of `parse_hour_from_text` (lines 1226-1263): search for the
clock-time pattern; convert the captured hour string via the numeral table,
falling back to `int()` (whose `ValueError` yields an absent result); read
the half-hour marker from the whole string; apply the promotion chain. -/
def parse_hour_from_text (time_str : List Char) : Option (Nat × Nat) :=
  match searchTime time_str with
  | none => none
  | some (period, hour_str) =>
    let hourOpt :=
      match List.lookup hour_str chinese_number_map with
      | some v => some v
      | none => parseIntDigits hour_str
    match hourOpt with
    | none => none
    | some hour =>
      let minute := if time_str.contains '半' then 30 else 0
      some (promote_hour period hour, minute)

/-- Python `str.lower()` restricted to ASCII letters.  Every character the
extractor compares against (CJK markers and digits) is a fixed point of full
`str.lower()`, and no cased character lowers to one of them, so this is
observationally equivalent for the embedded code. -/
def py_lower (c : Char) : Char :=
  if 'A' ≤ c ∧ c ≤ 'Z' then Char.ofNat (c.toNat + 32) else c

/-- Sequence-at-front test used by the substring check. -/
def startsWithSeq : List Char → List Char → Bool
  | _, [] => true
  | [], _ :: _ => false
  | c :: s, p :: ps => c == p && startsWithSeq s ps

/-- Python substring containment `pat in s`. -/
def containsSub (s pat : List Char) : Bool :=
  match s with
  | [] => startsWithSeq [] pat
  | _ :: rest => startsWithSeq s pat || containsSub rest pat

/-- Python `time.replace(hour=h, minute=m, second=0)` on a time value:
raises `ValueError` (modelled as `none`) unless `0 ≤ h ≤ 23` and
`0 ≤ m ≤ 59`; otherwise the resulting time of day in minutes. -/
def time_replace (hour minute : Nat) : Option Int :=
  if hour ≤ 23 ∧ minute ≤ 59 then some ((hour : Int) * 60 + minute) else none

/-- Outcome of `_extract_datetime_from_text`: an uncaught exception, the
absent result `(None, None)`, or a `(start_time, end_time)` window. -/
inductive ExtractResult where
  | raised
  | absent
  | window (start_time end_time : Int)
deriving DecidableEq, Repr

/-- Embedding of `CalendarAgent._extract_datetime_from_text` (lines
1205-1292).  `now` is the `datetime.now()` reference read at line 1214 (the
re-reads at lines 1278/1288 denote the same instant).  If the lowered text
contains 明天, the base date is tomorrow; otherwise if it contains 今天, or
in the default branch, the base date is today.  When an hour was parsed, the
start is the base date combined with `time(hour, minute)` — constructed via
`replace`, which raises on an out-of-range hour — and the end is one hour
later; otherwise the result is absent. -/
def extract_datetime_from_text (text : List Char) (now : Int) : ExtractResult :=
  let text_lower := text.map py_lower
  if containsSub text_lower ['明', '天'] then
    let base_date := (now + 1440).fdiv 1440
    match parse_hour_from_text text_lower with
    | some (hour, minute) =>
      match time_replace hour minute with
      | some t =>
        let start_time := base_date * 1440 + t
        ExtractResult.window start_time (start_time + 60)
      | none => ExtractResult.raised
    | none => ExtractResult.absent
  else if containsSub text_lower ['今', '天'] then
    let base_date := now.fdiv 1440
    match parse_hour_from_text text_lower with
    | some (hour, minute) =>
      match time_replace hour minute with
      | some t =>
        let start_time := base_date * 1440 + t
        ExtractResult.window start_time (start_time + 60)
      | none => ExtractResult.raised
    | none => ExtractResult.absent
  else
    let base_date := now.fdiv 1440
    match parse_hour_from_text text_lower with
    | some (hour, minute) =>
      match time_replace hour minute with
      | some t =>
        let start_time := base_date * 1440 + t
        ExtractResult.window start_time (start_time + 60)
      | none => ExtractResult.raised
    | none => ExtractResult.absent

/-- Candidate event for the C3 divergence: 22:00-23:30 of day 10
(minutes 15720-15810, duration 90). -/
def evC3 : CalendarEvent :=
  { id := "n1", title := "late meeting", start_time := 15720, end_time := 15810 }

/-- Stored event occupying days 7 through 9 completely. -/
def blockerEarly : CalendarEvent :=
  { id := "b1", title := "early block", start_time := 10080, end_time := 14400 }

/-- Stored event occupying days 11 through 13 completely. -/
def blockerLate : CalendarEvent :=
  { id := "b2", title := "late block", start_time := 15840, end_time := 20160 }

/-- Store used for the C3 divergence. -/
def storeC3 : Store := okStore [blockerEarly, blockerLate]

/-- C1: two events overlap iff `a.start < b.end AND b.start < a.end`
(half-open semantics); `find_conflicting_events` reports a stored event `e`
as conflicting with candidate `a` exactly when `e` has a different id and
this overlap condition holds; boundary-touching windows `[10:00,11:00)` and
`[11:00,12:00)` are not conflicting while `[10:00,11:00)` and
`[10:30,11:30)` are. -/
theorem C1_overlap_iff :
    (∀ a b : CalendarEvent,
      events_overlap a b = true ↔
        (a.start_time < b.end_time ∧ b.start_time < a.end_time)) ∧
    (∀ (evs : List CalendarEvent) (a e : CalendarEvent),
      e ∈ find_conflicting_events (okStore evs) a ↔
        (e ∈ evs ∧ e.id ≠ a.id ∧ a.start_time < e.end_time ∧ e.start_time < a.end_time)) ∧
    events_overlap ev10to11 ev11to12 = false ∧
    events_overlap ev10to11 ev1030to1130 = true := by
  refine ⟨?_, ?_, by decide, by decide⟩
  · intro a b
    simp [events_overlap]
  · intro evs a e
    simp only [find_conflicting_events, okStore, List.mem_filter, events_overlap,
      Bool.and_eq_true, decide_eq_true_eq]
    tauto

/-- C1 witness: instantiating the overlap characterisation at the concrete
conflicting pair `[10:00,11:00)` and `[10:30,11:30)`. -/
theorem C1_overlap_iff_witness :
    ev10to11.start_time < ev1030to1130.end_time ∧
    ev1030to1130.start_time < ev10to11.end_time :=
  (C1_overlap_iff.1 ev10to11 ev1030to1130).mp (by decide)

/-- C2 (divergence witness): against an empty store, with `date` = minute 0
(midnight of day 0) and a 60-minute duration, `get_available_slots` returns
the whole-hour starts 12:00 through 23:00 of day 0 (minutes 720..1380); the
probes actually issued are `06:00 + h hours` for `h = 6..21`, i.e. 12:00
through 03:00 of the next day, not the claimed 06:00 through 21:00 — in
particular 06:00 (minute 360) is never probed and 23:00 (minute 1380),
outside the claimed range, is returned. -/
theorem C2_slots_counterexample :
    get_available_slots (okStore []) 0 60 =
      [720, 780, 840, 900, 960, 1020, 1080, 1140, 1200, 1260, 1320, 1380] ∧
    (360 : Int) ∉ get_available_slots (okStore []) 0 60 ∧
    (1380 : Int) ∈ get_available_slots (okStore []) 0 60 := by
  refine ⟨by decide, ?_, ?_⟩ <;> decide

/-- C5 counterexample: for the invalid-window candidate (start = end) the
result of `find_conflicting_events` depends on the store's answer — two
stores give two different results — so the store query is issued; had the
candidate been rejected before any store query, the result could not depend
on the store.  Moreover the conflict list returned can be non-empty. -/
theorem C5_counterexample :
    find_conflicting_events (okStore [evAround10]) evInvalidWindow ≠
      find_conflicting_events (okStore []) evInvalidWindow ∧
    find_conflicting_events (okStore [evAround10]) evInvalidWindow = [evAround10] := by
  refine ⟨?_, by decide⟩
  decide

/-- C5 amended: `find_conflicting_events` performs no window validation at
all: for every candidate with `start_time ≥ end_time` and every successful
store answer, it still applies the ordinary id-and-overlap filter to the
store's events (the store is consulted exactly as for a valid candidate). -/
theorem C5_amended_no_validation (evs : List CalendarEvent)
    (new_event : CalendarEvent) (_h : new_event.start_time ≥ new_event.end_time) :
    find_conflicting_events (okStore evs) new_event =
      evs.filter
        (fun event => decide (event.id ≠ new_event.id) && events_overlap event new_event) := by
  rfl

/-- C5 amended witness: the invalid-window candidate at 10:00 against the
store holding `[09:00, 11:00)` yields that event as a conflict. -/
theorem C5_amended_no_validation_witness :
    evInvalidWindow.start_time ≥ evInvalidWindow.end_time ∧
    find_conflicting_events (okStore [evAround10]) evInvalidWindow =
      [evAround10].filter
        (fun event => decide (event.id ≠ evInvalidWindow.id) && events_overlap event evInvalidWindow) :=
  ⟨by decide, C5_amended_no_validation [evAround10] evInvalidWindow (by decide)⟩

/-- C6 counterexample: when the store query fails, `find_conflicting_events`
catches the exception and returns the empty list — the very value the claim
says it must not return — and the caller receives exactly what an empty,
healthy store would produce, so no distinct store-unavailable failure is
surfaced. -/
theorem C6_counterexample :
    find_conflicting_events failStore ev10to11 = [] ∧
    find_conflicting_events failStore ev10to11 =
      find_conflicting_events (okStore []) ev10to11 := by
  exact ⟨rfl, rfl⟩

/-- C6 amended: on a failing store query, `find_conflicting_events` swallows
the error and returns the empty conflict list for every candidate,
indistinguishable from a successful query over an empty store. -/
theorem C6_amended_swallows_failure (new_event : CalendarEvent) :
    find_conflicting_events failStore new_event = [] ∧
    find_conflicting_events failStore new_event =
      find_conflicting_events (okStore []) new_event :=
  ⟨rfl, rfl⟩

/-- Every non-absent, non-raising extraction returns a window ending exactly
one hour after its start (no explicit duration is ever parsed). -/
theorem extract_window_end_eq_start_add_hour (text : List Char) (now : Int)
    (s e : Int) (h : extract_datetime_from_text text now = ExtractResult.window s e) :
    e = s + 60 := by
  simp only [extract_datetime_from_text] at h
  repeat' split at h
  all_goals simp_all
  all_goals omega

/-- If the clock-time regex finds no match in the lowered text, every branch
of the extractor returns the absent result. -/
theorem extract_absent_of_no_search (text : List Char) (now : Int)
    (h : searchTime (text.map py_lower) = none) :
    extract_datetime_from_text text now = ExtractResult.absent := by
  have hp : parse_hour_from_text (text.map py_lower) = none := by
    simp [parse_hour_from_text, h]
  simp [extract_datetime_from_text, hp]

/-- C7: `extract_datetime_from_text "下午3点"` with now = 2024-01-15T09:00
(minute 540 with 2024-01-15T00:00 as epoch) yields start 15:00 (minute 900)
and end 16:00 (minute 960); in general an afternoon or evening qualifier
promotes an hour below 12 by +12 while hour 12 stays 12, and every returned
window ends one hour after its start. -/
theorem C7_afternoon_promotion :
    extract_datetime_from_text (String.toList "下午3点") 540 =
      ExtractResult.window 900 960 ∧
    (∀ hour : Nat, hour < 12 →
      promote_hour (some Period.xiawu) hour = hour + 12) ∧
    (∀ hour : Nat, hour < 12 →
      promote_hour (some Period.wanshang) hour = hour + 12) ∧
    promote_hour (some Period.xiawu) 12 = 12 ∧
    promote_hour (some Period.wanshang) 12 = 12 ∧
    (∀ (text : List Char) (now s e : Int),
      extract_datetime_from_text text now = ExtractResult.window s e →
      e = s + 60) := by
  refine ⟨by decide, ?_, ?_, by decide, by decide, ?_⟩
  · intro hour hh
    simp [promote_hour, hh]
  · intro hour hh
    simp [promote_hour, hh]
  · exact extract_window_end_eq_start_add_hour

/-- C7 witness: the promotion rule applied at hour 3, and the concrete
window's end is one hour after its start. -/
theorem C7_afternoon_promotion_witness :
    promote_hour (some Period.xiawu) 3 = 3 + 12 ∧ (960 : Int) = 900 + 60 :=
  ⟨C7_afternoon_promotion.2.1 3 (by decide),
   C7_afternoon_promotion.2.2.2.2.2 (String.toList "下午3点") 540 900 960
     C7_afternoon_promotion.1⟩

/-- C8: when the clock-time pattern does not occur in the text, the
extractor returns the absent result in every branch — even when a relative
day marker was resolved — and in particular on "今天开会" for every
reference time. -/
theorem C8_no_clock_time_absent :
    (∀ (text : List Char) (now : Int),
      searchTime (text.map py_lower) = none →
      extract_datetime_from_text text now = ExtractResult.absent) ∧
    (∀ now : Int,
      extract_datetime_from_text (String.toList "今天开会") now =
        ExtractResult.absent) := by
  refine ⟨extract_absent_of_no_search, ?_⟩
  intro now
  exact extract_absent_of_no_search _ now (by decide)

/-- C8 witness: the concrete text "今天开会" has no clock-time match and is
extracted as absent at reference minute 540. -/
theorem C8_no_clock_time_absent_witness :
    extract_datetime_from_text (String.toList "今天开会") 540 =
      ExtractResult.absent :=
  C8_no_clock_time_absent.1 (String.toList "今天开会") 540 (by decide)

/-- C9: with no period qualifier, an hour token below 8 is promoted by +12
(default-afternoon heuristic); in particular bare "3点" resolves to 15:00 of
the resolved day (minute 900 with the reference day as day 0). -/
theorem C9_default_afternoon :
    (∀ hour : Nat, hour < 8 → promote_hour none hour = hour + 12) ∧
    extract_datetime_from_text (String.toList "3点") 540 =
      ExtractResult.window 900 960 := by
  refine ⟨?_, by decide⟩
  intro hour hh
  simp [promote_hour, hh]

/-- C9 witness: the default-afternoon promotion applied at hour 3. -/
theorem C9_default_afternoon_witness : promote_hour none 3 = 3 + 12 :=
  C9_default_afternoon.1 3 (by decide)

/-- C10: on "明天99点" (day marker plus out-of-range hour token 99, no
period qualifier) the extractor reaches `time.replace(hour=99, ...)`, which
raises `ValueError`; the call raises instead of returning an absent
result. -/
theorem C10_out_of_range_hour_raises :
    extract_datetime_from_text (String.toList "明天99点") 540 =
      ExtractResult.raised := by
  decide

/-- C3 (divergence witness): with the day-10 22:00 candidate of duration 90
minutes, base time 22:00 and reference now 0, `suggest_alternative_times`
returns [21:30, 22:30, 21:00] of day 10 — and the suggested start 22:30
(minute 15750) has computed end 22:30 + 90 min = 24:00 (minute 15840),
strictly past 23:00 of its day (minute 15780).  The permitted-window check
of `_is_available` compares `end_time.hour > 23`, which no datetime
satisfies, so ends past 23:00 are never rejected, contradicting the claim
(and the source's own comment that slots must lie between 06:00 and
23:00). -/
theorem C3_counterexample :
    suggest_alternative_times storeC3 evC3 15720 0 = [15690, 15750, 15660] ∧
    (15750 : Int) + (evC3.end_time - evC3.start_time) = 15840 ∧
    (15840 : Int) > 10 * 1440 + 1380 := by
  refine ⟨?_, by decide, by decide⟩
  have hgen :
      (candidate_offsets.map (fun d => (15720 : Int) + d)).filter
        (fun cand => is_available storeC3 cand (evC3.end_time - evC3.start_time)) =
        [15690, 15750, 15660] := by decide
  have hsorted :
      ([15690, 15750, 15660] : List Int).mergeSort (sort_le 15720) =
        [15690, 15750, 15660] :=
    List.mergeSort_of_sorted (by decide)
  simp only [suggest_alternative_times]
  rw [hgen, hsorted]
  decide

/-- Transitivity of the distance comparison used by the suggestion sort. -/
theorem sort_le_trans (base_time : Int) :
    ∀ a b c : Int, sort_le base_time a b → sort_le base_time b c →
      sort_le base_time a c := by
  intro a b c hab hbc
  simp only [sort_le, decide_eq_true_eq] at *
  omega

/-- Totality of the distance comparison used by the suggestion sort. -/
theorem sort_le_total (base_time : Int) :
    ∀ a b : Int, sort_le base_time a b || sort_le base_time b a := by
  intro a b
  simp only [sort_le, Bool.or_eq_true, decide_eq_true_eq]
  omega

/-- In a duplicate-free list, a pair cannot occur as a sublist in both
orders unless its two components are equal. -/
theorem sublist_pair_antisymm {α : Type _} :
    ∀ {l : List α}, l.Nodup → ∀ {a b : α},
      List.Sublist [a, b] l → List.Sublist [b, a] l → a = b := by
  intro l
  induction l with
  | nil => intro _ a b h1 _; cases h1
  | cons c t ih =>
    intro hnd a b h1 h2
    rcases List.nodup_cons.mp hnd with ⟨hc, ht⟩
    cases h1 with
    | cons _ h1' =>
      cases h2 with
      | cons _ h2' => exact ih ht h1' h2'
      | cons₂ _ h2' => exact absurd (h1'.subset (by simp)) hc
    | cons₂ _ h1' =>
      cases h2 with
      | cons _ h2' => exact absurd (h2'.subset (by simp)) hc
      | cons₂ _ h2' => rfl

/-- The filtered candidate list is duplicate-free: the fourteen generated
offsets are pairwise distinct and shifting by `base_time` is injective. -/
theorem nodup_suggestions (p : Int → Bool) (base_time : Int) :
    ((candidate_offsets.map (fun d => base_time + d)).filter p).Nodup := by
  apply List.Nodup.filter
  apply List.Nodup.map
  · exact add_right_injective base_time
  · decide

/-- For every positive offset in the generation list, its negation is also
generated, and strictly earlier. -/
theorem offsets_pair_sublist :
    ∀ d ∈ candidate_offsets, 0 < d →
      List.Sublist [-d, d] candidate_offsets := by
  decide

/-- Stability of the suggestion sort: the sorted candidate list is pairwise
ordered by strictly increasing distance from `base_time`, except that
equal-distance pairs appear with the smaller (earlier-generated) time
first. -/
theorem pairwise_sorted_suggestions (p : Int → Bool) (base_time : Int) :
    (((candidate_offsets.map (fun d => base_time + d)).filter p).mergeSort
        (sort_le base_time)).Pairwise
      (fun a b => (a - base_time).natAbs < (b - base_time).natAbs ∨
        ((a - base_time).natAbs = (b - base_time).natAbs ∧ a ≤ b)) := by
  set gen := (candidate_offsets.map (fun d => base_time + d)).filter p with hgen
  have hnd : gen.Nodup := nodup_suggestions p base_time
  have hndS : (gen.mergeSort (sort_le base_time)).Nodup :=
    (List.mergeSort_perm gen (sort_le base_time)).nodup_iff.mpr hnd
  have hsorted :=
    List.sorted_mergeSort (sort_le_trans base_time) (sort_le_total base_time) gen
  rw [List.pairwise_iff_forall_sublist]
  intro a b hab
  have hle : sort_le base_time a b = true :=
    List.pairwise_iff_forall_sublist.mp hsorted hab
  have hdist : (a - base_time).natAbs ≤ (b - base_time).natAbs := by
    simpa [sort_le] using hle
  rcases lt_or_eq_of_le hdist with hlt | heq
  · exact Or.inl hlt
  · refine Or.inr ⟨heq, ?_⟩
    by_contra hba'
    push_neg at hba'
    have hamem : a ∈ gen := List.mem_mergeSort.mp (hab.subset (by simp))
    have hbmem : b ∈ gen := List.mem_mergeSort.mp (hab.subset (by simp))
    have hpa : p a := List.of_mem_filter (hgen ▸ hamem)
    have hpb : p b := List.of_mem_filter (hgen ▸ hbmem)
    obtain ⟨d1, hd1mem, ha⟩ :=
      List.mem_map.mp (List.mem_of_mem_filter (hgen ▸ hamem))
    obtain ⟨d2, hd2mem, hb⟩ :=
      List.mem_map.mp (List.mem_of_mem_filter (hgen ▸ hbmem))
    subst ha
    subst hb
    have hd2eq : d2 = -d1 := by omega
    have hd1pos : 0 < d1 := by omega
    subst hd2eq
    have hmap : List.Sublist [base_time + -d1, base_time + d1]
        (candidate_offsets.map (fun d => base_time + d)) :=
      List.Sublist.map (fun d => base_time + d)
        (offsets_pair_sublist d1 hd1mem hd1pos)
    have hfilter : List.Sublist [base_time + -d1, base_time + d1] gen := by
      rw [hgen]
      have h' := hmap.filter p
      rwa [List.filter_eq_self.mpr (by
        intro x hx
        simp only [List.mem_cons, List.not_mem_nil, or_false] at hx
        rcases hx with rfl | rfl
        · exact hpb
        · exact hpa)] at h'
    have hba : sort_le base_time (base_time + -d1) (base_time + d1) = true := by
      simp only [sort_le, decide_eq_true_eq]
      omega
    have hpairS : List.Sublist [base_time + -d1, base_time + d1]
        (gen.mergeSort (sort_le base_time)) :=
      List.pair_sublist_mergeSort (sort_le_trans base_time)
        (sort_le_total base_time) hba hfilter
    have : base_time + d1 = base_time + -d1 :=
      sublist_pair_antisymm hndS hab hpairS
    omega

/-- C4: for every store, candidate event, base time and clock reading, the
suggestion sequence (i) has at most 8 elements, (ii) is pairwise ordered by
strictly increasing absolute distance from `base_time`, with equal-distance
pairs listed smaller-time-first, and (iii) the generation order itself lists
every equal-distance pair smaller-time-first (the `-d` offset of each tier
precedes its `+d` partner), so the tie order of (ii) is exactly the original
generation order preserved by the stable sort. -/
theorem C4_sorted_stable_truncated (listEvents : Store)
    (new_event : CalendarEvent) (base_time now : Int) :
    (suggest_alternative_times listEvents new_event base_time now).length ≤ 8 ∧
    (suggest_alternative_times listEvents new_event base_time now).Pairwise
      (fun a b => (a - base_time).natAbs < (b - base_time).natAbs ∨
        ((a - base_time).natAbs = (b - base_time).natAbs ∧ a ≤ b)) ∧
    (candidate_offsets.map (fun d => base_time + d)).Pairwise
      (fun a b => (a - base_time).natAbs = (b - base_time).natAbs → a ≤ b) := by
  refine ⟨?_, ?_, ?_⟩
  · simp only [suggest_alternative_times]
    exact List.length_take_le 8 _
  · have hP := pairwise_sorted_suggestions
      (fun cand =>
        is_available listEvents cand (new_event.end_time - new_event.start_time))
      base_time
    simp only [suggest_alternative_times]
    exact List.Pairwise.sublist
      ((List.take_sublist _ _).trans (List.filter_sublist _)) hP
  · have hbase : candidate_offsets.Pairwise
        (fun d1 d2 => d1.natAbs = d2.natAbs → d1 ≤ d2) := by decide
    rw [List.pairwise_map]
    refine hbase.imp ?_
    intro d1 d2 h he
    have : d1.natAbs = d2.natAbs := by omega
    have := h this
    omega
